import Mathlib

/-!
# Verification of the wp-react-frontend data-access and session layer

Shallow embedding, in Lean 4, of the pure logic of the `tailnews-react`
WordPress frontend: the excerpt utility and transformation layer
(`src/lib/auth-api.ts` / `src/lib/transforms.ts`), the gateway response
handling (`apiRequest`, `postsAPI`, `serverPostsAPI`), the authentication
reducer and provider flows (`src/contexts/AuthContext.tsx`), and the
pagination slice of the zustand store (`src/store/wordpress.ts`).

JavaScript strings are modelled as `List Char` where character-level
operations matter (the excerpt logic) and as Lean `String` elsewhere.
JavaScript numbers are modelled as `Int` (every value involved is
integral); a `NaN` result of `parseInt` is modelled as `none`.
Falsy-coalescing (`x || d`, where `""` and `0` are falsy) is modelled
explicitly by the `jsOr*` helpers.  HTTP exchanges are modelled by outcome
types: one constructor for a 2xx response carrying the parsed body and the
pagination headers, and constructors for the failure modes that the
`catch` blocks of the source distinguish.  Functions in the source whose
failure paths are caught and converted to values are embedded as total
Lean functions over those outcome types, which is exactly the
"never throws past the caller" shape.
-/

namespace WpReact

/-! ## Definitions: excerpt generation (`wpUtils.createExcerpt`, auth-api.ts 695-700)

`content.replace(/<[^>]*>/g, '')` removes, repeatedly and left to right,
the span from each `<` to the first `>` that follows it; a `<` with no
later `>` matches nothing and is kept together with everything after it
(no match can start at or after it either, since any later `>` would also
follow this `<`).  `String.prototype.trim` removes leading and trailing
whitespace, and `substring(0, n)` takes the first `n` units.
-/

/-- The suffix of the list after the first `'>'`, or `none` when the list
contains no `'>'`.  Models the regex engine consuming `[^>]*>` after a `<`. -/
def dropAfterGt : List Char → Option (List Char)
  | [] => none
  | c :: cs => if c = '>' then some cs else dropAfterGt cs

/-- The tag-stripping pass `content.replace(/<[^>]*>/g, '')`. -/
def stripTags (l : List Char) : List Char :=
  match l with
  | [] => []
  | c :: cs =>
    if c = '<' then
      match hm : dropAfterGt cs with
      | some rest => stripTags rest
      | none => c :: cs
    else
      c :: stripTags cs
termination_by l.length
decreasing_by
  · have hlt : ∀ (xs rest : List Char), dropAfterGt xs = some rest → rest.length < xs.length := by
      intro xs
      induction xs with
      | nil => intro rest h; simp [dropAfterGt] at h
      | cons x xs ih =>
        intro rest h
        simp only [dropAfterGt] at h
        by_cases hx : x = '>'
        · simp [hx] at h
          simp [← h, List.length_cons, Nat.lt_succ_self]
        · simp [hx] at h
          exact Nat.lt_succ_of_lt (ih rest h)
    exact Nat.lt_succ_of_lt (hlt cs _ hm)
  · simp

/-- `hasTag l` holds when `l` still contains a removable `<...>` span:
a `'<'` with some `'>'` after it. -/
def hasTag : List Char → Bool
  | [] => false
  | c :: cs => if c = '<' then (dropAfterGt cs).isSome else hasTag cs

/-- `String.prototype.trim` on the right end: remove the maximal run of
whitespace characters from the end of the list. -/
def dropWhileEnd (p : Char → Bool) : List Char → List Char
  | [] => []
  | c :: cs =>
    match dropWhileEnd p cs with
    | [] => if p c then [] else [c]
    | d :: ds => c :: d :: ds

/-- The whitespace class removed by `String.prototype.trim` (the members
relevant to this code base: ASCII blanks plus NBSP and BOM). -/
def isJsWhitespace (c : Char) : Bool :=
  c == ' ' || c == '\t' || c == '\n' || c == '\r' ||
  c == Char.ofNat 11 || c == Char.ofNat 12 || c == Char.ofNat 0xA0 || c == Char.ofNat 0xFEFF

/-- `String.prototype.trim`: whitespace removed from both ends. -/
def trim (l : List Char) : List Char :=
  dropWhileEnd isJsWhitespace (l.dropWhile isJsWhitespace)

/-- `wpUtils.createExcerpt` (auth-api.ts 695-700): strip tags, and when
the clean text exceeds the budget, truncate to it, trim, and append `...`. -/
def createExcerpt (content : List Char) (length : Nat := 160) : List Char :=
  let cleanText := stripTags content
  if cleanText.length > length then
    trim (cleanText.take length) ++ ['.', '.', '.']
  else
    cleanText

/-- `wpUtils.createExcerpt` on Lean strings (used by `transformPost`). -/
def createExcerptS (content : String) (length : Nat := 160) : String :=
  (createExcerpt content.toList length).asString

/-! ## Definitions: JavaScript coercion helpers -/

/-- `a || d` for a possibly-undefined string (`""` is falsy). -/
def jsOrString (a : Option String) (d : String) : String :=
  match a with
  | some s => if s = "" then d else s
  | none => d

/-- `a || b` where both sides may be undefined (`""` is falsy). -/
def jsOrStringOpt (a b : Option String) : Option String :=
  match a with
  | some s => if s = "" then b else some s
  | none => b

/-- `a || d` for a possibly-undefined number (`0` is falsy). -/
def jsOrNum (a : Option Int) (d : Int) : Int :=
  match a with
  | some v => if v = 0 then d else v
  | none => d

/-- The value of the leading decimal-digit run, or `none` when there is none. -/
def parseLeadingDigits (l : List Char) : Option Nat :=
  let digits := l.takeWhile Char.isDigit
  if digits.isEmpty then none
  else some (digits.foldl (fun acc c => acc * 10 + (c.toNat - 48)) 0)

/-- JavaScript `parseInt` restricted to base 10: skip leading whitespace,
accept an optional sign, read leading digits; `none` models `NaN`. -/
def jsParseInt (s : String) : Option Int :=
  match s.toList.dropWhile isJsWhitespace with
  | '+' :: rest => (parseLeadingDigits rest).map fun n => (n : Int)
  | '-' :: rest => (parseLeadingDigits rest).map fun n => -(n : Int)
  | rest => (parseLeadingDigits rest).map fun n => (n : Int)

/-! ## Definitions: WordPress raw objects and the transformation layer
(`src/types/wordpress.ts`, `src/lib/transforms.ts`, `wpUtils` in auth-api.ts) -/

/-- An entry of `_embedded['wp:featuredmedia']`.  `alt_text` is kept as a
string; an absent `alt_text` behaves like `""` under `||`. -/
structure WPMedia where
  source_url : String
  alt_text : String
deriving Repr, DecidableEq

/-- An entry of `_embedded['wp:term'][i]`. -/
structure WPTerm where
  id : Nat
  name : String
  slug : String
  taxonomy : String
deriving Repr, DecidableEq

/-- An entry of `_embedded.author`. -/
structure WPAuthor where
  id : Nat
  name : String
  slug : String
  avatar96 : Option String
  avatar48 : Option String
deriving Repr, DecidableEq

/-- The `_embedded` payload of a post. -/
structure WPEmbedded where
  featuredmedia : List WPMedia
  author : List WPAuthor
  terms : List (List WPTerm)
deriving Repr, DecidableEq

/-- A raw WordPress post, with the `.rendered` fields flattened.
`hasFeaturedMediaLink` models the presence of `_links['wp:featuredmedia'][0]`. -/
structure WordPressPost where
  id : Nat
  slug : String
  title : String
  excerpt : String
  content : String
  date : String
  sticky : Bool
  hasFeaturedMediaLink : Bool
  embedded : Option WPEmbedded
deriving Repr, DecidableEq

structure FeaturedImage where
  url : String
  alt : String
deriving Repr, DecidableEq

/-- `wpUtils.getFeaturedImage`. -/
def getFeaturedImage (post : WordPressPost) : Option FeaturedImage :=
  if post.hasFeaturedMediaLink then
    match post.embedded with
    | some embedded =>
      match embedded.featuredmedia.head? with
      | some media => some { url := media.source_url, alt := jsOrString (some media.alt_text) post.title }
      | none => none
    | none => none
  else
    none

/-- `wpUtils.getAuthor`. -/
def getAuthor (post : WordPressPost) : Option WPAuthor :=
  match post.embedded with
  | some embedded => embedded.author.head?
  | none => none

/-- `wpUtils.getCategories`: terms group 0 filtered by taxonomy. -/
def getCategories (post : WordPressPost) : List WPTerm :=
  match post.embedded with
  | some embedded =>
    match embedded.terms.head? with
    | some group => group.filter fun term => term.taxonomy == "category"
    | none => []
  | none => []

/-- `wpUtils.getTags`: terms group 1 filtered by taxonomy. -/
def getTags (post : WordPressPost) : List WPTerm :=
  match post.embedded with
  | some embedded =>
    match embedded.terms[1]? with
    | some group => group.filter fun term => term.taxonomy == "post_tag"
    | none => []
  | none => []

structure ArticleCategory where
  name : String
  slug : String
  id : Nat
deriving Repr, DecidableEq

structure ArticleAuthor where
  name : String
  slug : String
  id : Nat
  avatar : Option String
deriving Repr, DecidableEq

structure ArticleTag where
  name : String
  slug : String
  id : Nat
deriving Repr, DecidableEq

/-- The flat view-model (`src/types/api.ts` `Article`). -/
structure Article where
  id : Nat
  title : String
  excerpt : String
  content : String
  slug : String
  date : String
  featuredImage : Option FeaturedImage
  category : Option ArticleCategory
  author : Option ArticleAuthor
  tags : List ArticleTag
  isSticky : Bool
deriving Repr, DecidableEq

/-- `transformPost` (transforms.ts): raw post to view-model. -/
def transformPost (post : WordPressPost) : Article :=
  let featuredImage := getFeaturedImage post
  let author := getAuthor post
  let categories := getCategories post
  let tags := getTags post
  { id := post.id
    title := post.title
    excerpt := createExcerptS post.excerpt
    content := post.content
    slug := post.slug
    date := post.date
    featuredImage := featuredImage
    category := categories.head?.map fun c => { name := c.name, slug := c.slug, id := c.id }
    author := author.map fun a =>
      { name := a.name, slug := a.slug, id := a.id, avatar := jsOrStringOpt a.avatar96 a.avatar48 }
    tags := tags.map fun tag => { name := tag.name, slug := tag.slug, id := tag.id }
    isSticky := post.sticky }

/-! ## Definitions: client gateway (`apiRequest`, `postsAPI` in auth-api.ts)

A `FetchOutcome` is what one `fetch` + `response.json()` exchange can do:
a 2xx response with a parsed body and the two pagination headers, a
non-2xx response, or a thrown value (`some m` an `Error` with message `m`,
`none` a non-`Error` throw). -/

inductive FetchOutcome (α : Type) where
  | success (body : α) (totalPagesHeader : Option String) (totalHeader : Option String)
  | httpError (status : Nat) (statusText : String)
  | thrown (errorMessage : Option String)
deriving Repr, DecidableEq

def FetchOutcome.isFailure {α : Type} : FetchOutcome α → Bool
  | .success _ _ _ => false
  | .httpError _ _ => true
  | .thrown _ => true

/-- The `APIResponse<T>` wrapper of auth-api.ts.  `totalPages`/`total` are
`none` when the field is absent (error paths) or `parseInt` gave `NaN`. -/
structure APIResponse (α : Type) where
  data : Option α
  error : Option String
  totalPages : Option Int := none
  total : Option Int := none
deriving Repr, DecidableEq

/-- `apiRequest` (auth-api.ts 352-386): typed result, never a throw. -/
def apiRequest {α : Type} (o : FetchOutcome α) : APIResponse α :=
  match o with
  | .success body tpHeader tHeader =>
    { data := some body
      error := none
      totalPages := jsParseInt (jsOrString tpHeader "1")
      total := jsParseInt (jsOrString tHeader "0") }
  | .httpError status statusText =>
    { data := none, error := some ("WordPress API Error: " ++ toString status ++ " " ++ statusText) }
  | .thrown errorMessage =>
    { data := none, error := some (errorMessage.getD "Unknown API error") }

/-- `postsAPI.getPostBySlug` (auth-api.ts 430-444): filtered list query,
first element or the explicit not-found result. -/
def getPostBySlug (o : FetchOutcome (List WordPressPost)) : APIResponse WordPressPost :=
  let response := apiRequest o
  match response.data with
  | some posts =>
    match posts with
    | p :: _ => { data := some p, error := none }
    | [] => { data := none, error := some "Post not found" }
  | none => { data := none, error := some "Post not found" }

/-- The WordPress REST contract for `GET /posts?slug=...` (external,
fixed by WordPress): the response body lists exactly the posts whose slug
equals the query value. -/
def wpPostsBySlugQuery (db : List WordPressPost) (slug : String) : List WordPressPost :=
  db.filter fun post => post.slug == slug

/-- The parameter object of `postsAPI.getPosts`. -/
structure PostsParams where
  page : Option Int := none
  per_page : Option Int := none
  categories : Option (List Nat) := none
  tags : Option (List Nat) := none
  author : Option Nat := none
  search : Option String := none
  orderby : Option String := none
  order : Option String := none
  status : Option String := none
deriving Repr, DecidableEq

def joinComma (ns : List Nat) : String :=
  String.intercalate "," (ns.map toString)

/-- The query string `postsAPI.getPosts` builds with `URLSearchParams`
(insertion order; optional filters appended only when truthy/non-empty;
percent-encoding omitted — all values here are URL-safe). -/
def postsQueryString (params : PostsParams) : String :=
  let base := "_embed=true&per_page=" ++ toString (jsOrNum params.per_page 10)
    ++ "&page=" ++ toString (jsOrNum params.page 1)
    ++ "&orderby=" ++ jsOrString params.orderby "date"
    ++ "&order=" ++ jsOrString params.order "desc"
    ++ "&status=" ++ jsOrString params.status "publish"
  let base := match params.categories with
    | some (c :: cs) => base ++ "&categories=" ++ joinComma (c :: cs)
    | _ => base
  let base := match params.tags with
    | some (t :: ts) => base ++ "&tags=" ++ joinComma (t :: ts)
    | _ => base
  let base := match params.author with
    | some a => if a = 0 then base else base ++ "&author=" ++ toString a
    | none => base
  let base := match params.search with
    | some s => if s = "" then base else base ++ "&search=" ++ s
    | none => base
  base

/-- `postsAPI.getPosts` (auth-api.ts 391-427): build the query, issue the
request, and return `apiRequest`'s typed result unchanged.  The backend is
modelled as a function from the requested path to the exchange outcome. -/
def getPosts (params : PostsParams)
    (server : String → FetchOutcome (List WordPressPost)) : APIResponse (List WordPressPost) :=
  apiRequest (server ("/posts?" ++ postsQueryString params))

/-! ## Definitions: server-side API (`src/lib/server-api.ts`) -/

/-- What one server-side `fetch` exchange can do; `thrown` covers network
errors, the 10s abort, and JSON parse failures (all reach `catch`). -/
inductive ServerFetchOutcome (α : Type) where
  | success (body : α) (totalPagesHeader : Option String) (totalHeader : Option String)
  | httpError (status : Nat) (statusText : String)
  | thrown (message : Option String)
deriving Repr, DecidableEq

def ServerFetchOutcome.isFailure {α : Type} : ServerFetchOutcome α → Bool
  | .success _ _ _ => false
  | .httpError _ _ => true
  | .thrown _ => true

/-- Return type of `serverPostsAPI.getPosts`. -/
structure ServerPostsResult where
  posts : List Article
  totalPages : Option Int
  total : Option Int
deriving Repr, DecidableEq

/-- `serverPostsAPI.getPosts` (server-api.ts 88-110): on success map the
body through `transformPost` and read the counts from the headers; every
failure is swallowed into the empty-success value. -/
def serverGetPosts (o : ServerFetchOutcome (List WordPressPost)) : ServerPostsResult :=
  match o with
  | .success body tpHeader tHeader =>
    { posts := body.map transformPost
      totalPages := jsParseInt (jsOrString tpHeader "1")
      total := jsParseInt (jsOrString tHeader "0") }
  | .httpError _ _ => { posts := [], totalPages := some 1, total := some 0 }
  | .thrown _ => { posts := [], totalPages := some 1, total := some 0 }

/-- `serverPostsAPI.getPostBySlug` (server-api.ts 114-127): first element
of the filtered list transformed, `none` when empty or on any failure. -/
def serverGetPostBySlug (o : ServerFetchOutcome (List WordPressPost)) : Option Article :=
  match o with
  | .success posts _ _ =>
    match posts with
    | p :: _ => some (transformPost p)
    | [] => none
  | .httpError _ _ => none
  | .thrown _ => none

/-! ## Definitions: authentication (`src/lib/auth-api.ts`, `src/contexts/AuthContext.tsx`)

The `meta: Record<string, any>` field of `User` is not modelled (it is
opaque and unused by the verified properties). -/

/-- The transformed `User` of `src/types/auth.ts`.  `displayName` is
`Option` because `wpUser.name || wpUser.display_name` can be undefined. -/
structure User where
  id : Nat
  username : String
  email : String
  firstName : String
  lastName : String
  displayName : Option String
  roles : List String
  capabilities : List (String × Bool)
  avatar : String
  description : String
  url : String
  registeredDate : String
deriving Repr, DecidableEq

/-- The raw `wpUser` object received from WordPress. -/
structure WPUserPayload where
  id : Nat
  username : Option String
  slug : String
  email : String
  first_name : Option String
  last_name : Option String
  name : Option String
  display_name : Option String
  roles : Option (List String)
  capabilities : Option (List (String × Bool))
  avatar96 : Option String
  avatar48 : Option String
  description : Option String
  url : Option String
  registered_date : Option String
deriving Repr, DecidableEq

/-- `AuthAPI.transformUser`.  `nowIso` stands for `new Date().toISOString()`,
used when `registered_date` is falsy. -/
def transformUser (wpUser : WPUserPayload) (nowIso : String) : User :=
  { id := wpUser.id
    username := jsOrString wpUser.username wpUser.slug
    email := wpUser.email
    firstName := jsOrString wpUser.first_name ""
    lastName := jsOrString wpUser.last_name ""
    displayName := jsOrStringOpt wpUser.name wpUser.display_name
    roles := wpUser.roles.getD []
    capabilities := wpUser.capabilities.getD []
    avatar := jsOrString wpUser.avatar96 (jsOrString wpUser.avatar48 "")
    description := jsOrString wpUser.description ""
    url := jsOrString wpUser.url ""
    registeredDate := jsOrString wpUser.registered_date nowIso }

/-- The data carried by a thrown `AuthAPIError`. -/
structure AuthAPIErrorData where
  message : String
  code : String
  status : Nat
deriving Repr, DecidableEq

/-- What one `AuthAPI.makeRequest` exchange can do: 2xx with body, non-2xx
with the parsed error payload (`data.message`/`data.code`, absent or empty
both falsy), a fetch `TypeError`, or any other thrown value. -/
inductive AuthRequestOutcome (α : Type) where
  | ok (body : α)
  | httpError (status : Nat) (dataMessage : Option String) (dataCode : Option String)
  | typeError
  | otherThrown
deriving Repr, DecidableEq

/-- `AuthAPI.makeRequest` (auth-api.ts 31-76): success body or a single
`AuthAPIError`, with the documented fallback message/code per failure mode. -/
def makeRequest {α : Type} : AuthRequestOutcome α → Except AuthAPIErrorData α
  | .ok body => .ok body
  | .httpError status dataMessage dataCode =>
    .error { message := jsOrString dataMessage "Authentication request failed"
             code := jsOrString dataCode "AUTH_ERROR"
             status := status }
  | .typeError =>
    .error { message := "Network error - please check your connection", code := "NETWORK_ERROR", status := 0 }
  | .otherThrown =>
    .error { message := "An unexpected error occurred", code := "UNKNOWN_ERROR", status := 500 }

/-- Body of the JWT `/token` (and `/token/refresh`) endpoint. -/
structure TokenEndpointBody where
  token : String
  refresh_token : Option String
  expires_in : Option Int
deriving Repr, DecidableEq

/-- Body of the `/token/validate` endpoint. -/
structure ValidateEndpointBody where
  data : WPUserPayload
deriving Repr, DecidableEq

structure AuthResponse where
  token : String
  user : User
  refreshToken : Option String
  expiresIn : Int
deriving Repr, DecidableEq

/-- `AuthAPI.login` (auth-api.ts 97-120): `/token` then `/token/validate`;
the first failure propagates as the thrown `AuthAPIError`. -/
def authLogin (tokenOutcome : AuthRequestOutcome TokenEndpointBody)
    (validateOutcome : AuthRequestOutcome ValidateEndpointBody) (nowIso : String) :
    Except AuthAPIErrorData AuthResponse :=
  match makeRequest tokenOutcome with
  | .error e => .error e
  | .ok response =>
    match makeRequest validateOutcome with
    | .error e => .error e
    | .ok userResponse =>
      .ok { token := response.token
            user := transformUser userResponse.data nowIso
            refreshToken := response.refresh_token
            expiresIn := jsOrNum response.expires_in 3600 }

/-- `AuthAPI.refreshToken` (auth-api.ts 161-177): `/token/refresh` then
validate; the returned refresh token falls back to the stored one. -/
def authRefreshTokenCall (storedRefreshToken : String)
    (refreshOutcome : AuthRequestOutcome TokenEndpointBody)
    (validateOutcome : AuthRequestOutcome ValidateEndpointBody) (nowIso : String) :
    Except AuthAPIErrorData AuthResponse :=
  match makeRequest refreshOutcome with
  | .error e => .error e
  | .ok response =>
    match makeRequest validateOutcome with
    | .error e => .error e
    | .ok userResponse =>
      .ok { token := response.token
            user := transformUser userResponse.data nowIso
            refreshToken := some (jsOrString response.refresh_token storedRefreshToken)
            expiresIn := jsOrNum response.expires_in 3600 }

/-- The decoded JWT payload (`src/types/auth.ts` `JWTPayload`). -/
structure JWTUser where
  id : Nat
  username : String
  email : String
  roles : List String
deriving Repr, DecidableEq

structure JWTPayload where
  iss : String
  iat : Int
  nbf : Int
  exp : Int
  user : JWTUser
deriving Repr, DecidableEq

/-- `AuthAPI.isTokenExpired` (auth-api.ts 284-290).  The token string is
represented by its `decodeToken` result (`decodeToken` itself is a
base64url + `JSON.parse` round-trip through host builtins); `none` is a
token that failed to decode.  `Date.now() / 1000` is the exact rational
`nowMs / 1000`, compared with `decoded.exp <`. -/
def isTokenExpired (decoded : Option JWTPayload) (nowMs : Int) : Bool :=
  match decoded with
  | none => true
  | some payload => decide ((payload.exp : ℚ) < (nowMs : ℚ) / 1000)

/-- The reducer state of `AuthContext.tsx`. -/
structure AuthState where
  user : Option User
  token : Option String
  refreshToken : Option String
  isAuthenticated : Bool
  isLoading : Bool
  error : Option String
deriving Repr, DecidableEq

def initialState : AuthState :=
  { user := none, token := none, refreshToken := none
    isAuthenticated := false, isLoading := false, error := none }

inductive AuthAction where
  | authStart
  | authSuccess (user : User) (token : String) (refreshToken : Option String)
  | authError (message : String)
  | authLogout
  | userUpdate (user : User)
  | clearError
deriving Repr, DecidableEq

/-- `authReducer` (AuthContext.tsx 33-84). -/
def authReducer (state : AuthState) (action : AuthAction) : AuthState :=
  match action with
  | .authStart => { state with isLoading := true, error := none }
  | .authSuccess user token refreshToken =>
    { state with
      user := some user
      token := some token
      refreshToken := jsOrStringOpt refreshToken state.refreshToken
      isAuthenticated := true
      isLoading := false
      error := none }
  | .authError message =>
    { user := none, token := none, refreshToken := none,
      isAuthenticated := false, isLoading := false, error := some message }
  | .authLogout => initialState
  | .userUpdate user => { state with user := some user }
  | .clearError => { state with error := none }

/-- The three browser local-storage keys the session manager uses. -/
structure LocalStorage where
  authToken : Option String
  refreshToken : Option String
  userData : Option User
deriving Repr, DecidableEq

/-- `AuthAPI.storeToken`: the refresh token is written only when truthy. -/
def storeToken (storage : LocalStorage) (token : String) (refreshToken : Option String) : LocalStorage :=
  { storage with
    authToken := some token
    refreshToken :=
      match refreshToken with
      | some rt => if rt = "" then storage.refreshToken else some rt
      | none => storage.refreshToken }

/-- `AuthAPI.storeUser`. -/
def storeUser (storage : LocalStorage) (user : User) : LocalStorage :=
  { storage with userData := some user }

/-- `AuthAPI.logout` (auth-api.ts 247-253): remove the three keys. -/
def authLogoutStorage (storage : LocalStorage) : LocalStorage :=
  { storage with authToken := none, refreshToken := none, userData := none }

/-- `AuthProvider.login` (AuthContext.tsx 94-120): dispatch `AUTH_START`,
run `authAPI.login`, then either persist and dispatch `AUTH_SUCCESS`, or
dispatch `AUTH_ERROR` with the `AuthAPIError` message and rethrow (the
rethrown error is the third component; every failure in this model is an
`AuthAPIError`, so the non-`AuthAPIError` fallback message is unreachable). -/
def providerLogin (state : AuthState) (storage : LocalStorage)
    (tokenOutcome : AuthRequestOutcome TokenEndpointBody)
    (validateOutcome : AuthRequestOutcome ValidateEndpointBody)
    (nowIso : String) : AuthState × LocalStorage × Option AuthAPIErrorData :=
  let started := authReducer state .authStart
  match authLogin tokenOutcome validateOutcome nowIso with
  | .ok authResponse =>
    (authReducer started (.authSuccess authResponse.user authResponse.token authResponse.refreshToken),
     storeUser (storeToken storage authResponse.token authResponse.refreshToken) authResponse.user,
     none)
  | .error e =>
    (authReducer started (.authError e.message), storage, some e)

/-- `AuthProvider.refreshAuth` (AuthContext.tsx 158-184): with no stored
refresh token, log out at once; otherwise one `authAPI.refreshToken` call,
whose failure logs out (state reset, storage cleared) with no retry.  The
`Nat` component counts the `authAPI.refreshToken` calls issued. -/
def providerRefreshAuth (state : AuthState) (storage : LocalStorage)
    (refreshOutcome : AuthRequestOutcome TokenEndpointBody)
    (validateOutcome : AuthRequestOutcome ValidateEndpointBody)
    (nowIso : String) : AuthState × LocalStorage × Nat :=
  match storage.refreshToken with
  | none => (authReducer state .authLogout, authLogoutStorage storage, 0)
  | some refreshToken =>
    if refreshToken = "" then
      (authReducer state .authLogout, authLogoutStorage storage, 0)
    else
      match authRefreshTokenCall refreshToken refreshOutcome validateOutcome nowIso with
      | .ok authResponse =>
        (authReducer state (.authSuccess authResponse.user authResponse.token authResponse.refreshToken),
         storeUser (storeToken storage authResponse.token authResponse.refreshToken) authResponse.user,
         1)
      | .error _ =>
        (authReducer state .authLogout, authLogoutStorage storage, 1)

/-! ## Definitions: pagination slice of the zustand store
(`src/store/wordpress.ts` 148-177) -/

structure PaginationState where
  currentPage : Int
  totalPages : Int
  hasNextPage : Bool
  hasPreviousPage : Bool
deriving Repr, DecidableEq

/-- `setPagination`. -/
def setPagination (state : PaginationState) (currentPage totalPages : Int) : PaginationState :=
  { state with
    currentPage := currentPage
    totalPages := totalPages
    hasNextPage := decide (currentPage < totalPages)
    hasPreviousPage := decide (currentPage > 1) }

/-- `nextPage`: `Math.min(currentPage + 1, totalPages)`. -/
def nextPage (state : PaginationState) : PaginationState :=
  let newPage := min (state.currentPage + 1) state.totalPages
  { state with
    currentPage := newPage
    hasNextPage := decide (newPage < state.totalPages)
    hasPreviousPage := decide (newPage > 1) }

/-- `previousPage`: `Math.max(currentPage - 1, 1)`. -/
def previousPage (state : PaginationState) : PaginationState :=
  let newPage := max (state.currentPage - 1) 1
  { state with
    currentPage := newPage
    hasNextPage := decide (newPage < state.totalPages)
    hasPreviousPage := decide (newPage > 1) }

/-- `goToPage`: the stored page is clamped, but the flags are computed
from the unclamped argument. -/
def goToPage (state : PaginationState) (page : Int) : PaginationState :=
  { state with
    currentPage := max 1 (min page state.totalPages)
    hasNextPage := decide (page < state.totalPages)
    hasPreviousPage := decide (page > 1) }

/-- The invariant claimed for the pagination slice: the derived flags
agree with the page counters. -/
def flagsConsistent (state : PaginationState) : Prop :=
  state.hasNextPage = decide (state.currentPage < state.totalPages) ∧
  state.hasPreviousPage = decide (state.currentPage > 1)

/-! ## Definitions: concrete sample values used by witnesses -/

/-- A concrete raw post (no tags in its fields, no embedded data). -/
def examplePost : WordPressPost :=
  { id := 1, slug := "hello", title := "t", excerpt := "e", content := "c"
    date := "2024-01-01", sticky := false, hasFeaturedMediaLink := false, embedded := none }

/-- A concrete raw user payload. -/
def exampleWpUser : WPUserPayload :=
  { id := 7, username := some "alice", slug := "alice", email := "a@x"
    first_name := none, last_name := none, name := some "Alice", display_name := none
    roles := some ["editor"], capabilities := some [("edit_posts", true)]
    avatar96 := none, avatar48 := none, description := none, url := none
    registered_date := some "2020-01-01" }

/-! ## General lemmas about the excerpt pipeline -/

theorem dropAfterGt_length : ∀ {cs rest : List Char}, dropAfterGt cs = some rest → rest.length < cs.length := by
  intro cs
  induction cs with
  | nil => intro rest h; simp [dropAfterGt] at h
  | cons c cs ih =>
    intro rest h
    simp only [dropAfterGt] at h
    by_cases hc : c = '>'
    · simp [hc] at h
      simp [← h, List.length_cons, Nat.lt_succ_self]
    · simp [hc] at h
      exact Nat.lt_succ_of_lt (ih h)

theorem stripTags_nil : stripTags [] = [] := by
  rw [stripTags]

theorem stripTags_cons_lt_some {c : Char} {cs rest : List Char} (hc : c = '<')
    (h : dropAfterGt cs = some rest) : stripTags (c :: cs) = stripTags rest := by
  rw [stripTags]
  simp only [if_pos hc]
  split
  · rename_i r hr
    rw [h] at hr
    rw [Option.some.injEq] at hr
    rw [hr]
  · rename_i hr
    rw [h] at hr
    exact absurd hr (by simp)

theorem stripTags_cons_lt_none {c : Char} {cs : List Char} (hc : c = '<')
    (h : dropAfterGt cs = none) : stripTags (c :: cs) = c :: cs := by
  rw [stripTags]
  simp only [if_pos hc]
  split
  · rename_i r hr
    rw [h] at hr
    exact absurd hr (by simp)
  · rfl

theorem stripTags_cons_ne {c : Char} {cs : List Char} (hc : ¬ c = '<') :
    stripTags (c :: cs) = c :: stripTags cs := by
  rw [stripTags]
  simp only [if_neg hc]

theorem hasTag_eq_false_iff_strip_fix {l : List Char} (h : hasTag l = false) : stripTags l = l := by
  induction l with
  | nil => exact stripTags_nil
  | cons c cs ih =>
    simp only [hasTag] at h
    by_cases hc : c = '<'
    · simp only [if_pos hc] at h
      cases hdg : dropAfterGt cs with
      | some rest => rw [hdg] at h; simp at h
      | none => exact stripTags_cons_lt_none hc hdg
    · simp only [if_neg hc] at h
      rw [stripTags_cons_ne hc, ih h]

theorem mem_gt_of_dropAfterGt_isSome {cs : List Char} (h : (dropAfterGt cs).isSome = true) : '>' ∈ cs := by
  induction cs with
  | nil => simp [dropAfterGt] at h
  | cons c cs ih =>
    simp only [dropAfterGt] at h
    by_cases hc : c = '>'
    · simp [hc]
    · simp [hc] at h
      exact List.mem_cons_of_mem _ (ih h)

theorem dropAfterGt_isSome_of_mem {cs : List Char} (h : '>' ∈ cs) : (dropAfterGt cs).isSome = true := by
  induction cs with
  | nil => simp at h
  | cons c cs ih =>
    simp only [dropAfterGt]
    by_cases hc : c = '>'
    · simp [hc]
    · simp [hc]
      rcases List.mem_cons.mp h with h1 | h2
      · exact absurd h1.symm hc
      · exact ih h2

theorem dropAfterGt_isSome_eq_false {cs : List Char} (h : '>' ∉ cs) : (dropAfterGt cs).isSome = false := by
  cases hs : (dropAfterGt cs).isSome
  · rfl
  · exact absurd (mem_gt_of_dropAfterGt_isSome hs) h

theorem gt_mem_of_hasTag {l : List Char} (h : hasTag l = true) : '>' ∈ l := by
  induction l with
  | nil => simp [hasTag] at h
  | cons c cs ih =>
    simp only [hasTag] at h
    by_cases hc : c = '<'
    · simp only [if_pos hc] at h
      exact List.mem_cons_of_mem _ (mem_gt_of_dropAfterGt_isSome h)
    · simp only [if_neg hc] at h
      exact List.mem_cons_of_mem _ (ih h)

theorem hasTag_stripTags (l : List Char) : hasTag (stripTags l) = false := by
  generalize hn : l.length = n
  induction n using Nat.strong_induction_on generalizing l with
  | _ n ih =>
    match l with
    | [] => rw [stripTags_nil]; rfl
    | c :: cs =>
      by_cases hc : c = '<'
      · cases hdg : dropAfterGt cs with
        | some rest =>
          rw [stripTags_cons_lt_some hc hdg]
          exact ih rest.length (by rw [← hn]; exact Nat.lt_succ_of_lt (dropAfterGt_length hdg)) rest rfl
        | none =>
          rw [stripTags_cons_lt_none hc hdg]
          simp [hasTag, if_pos hc, hdg]
      · rw [stripTags_cons_ne hc]
        simp only [hasTag, if_neg hc]
        exact ih cs.length (by rw [← hn]; simp) cs rfl

theorem stripTags_idem (l : List Char) : stripTags (stripTags l) = stripTags l :=
  hasTag_eq_false_iff_strip_fix (hasTag_stripTags l)

theorem hasTag_append_left {a b : List Char} (h : hasTag (a ++ b) = false) : hasTag a = false := by
  induction a with
  | nil => rfl
  | cons c a ih =>
    simp only [List.cons_append, hasTag, List.append_eq] at h ⊢
    by_cases hc : c = '<'
    · simp only [if_pos hc] at h ⊢
      refine dropAfterGt_isSome_eq_false fun hm => ?_
      have hin : '>' ∈ a ++ b := List.mem_append_left _ hm
      rw [dropAfterGt_isSome_of_mem hin] at h
      exact absurd h (by simp)
    · simp only [if_neg hc] at h ⊢
      exact ih h

theorem hasTag_append_right {a b : List Char} (h : hasTag (a ++ b) = false) : hasTag b = false := by
  induction a with
  | nil => exact h
  | cons c a ih =>
    simp only [List.cons_append, hasTag, List.append_eq] at h
    by_cases hc : c = '<'
    · simp only [if_pos hc] at h
      cases hb : hasTag b
      · rfl
      · have hin : '>' ∈ a ++ b := List.mem_append_right _ (gt_mem_of_hasTag hb)
        rw [dropAfterGt_isSome_of_mem hin] at h
        exact absurd h (by simp)
    · simp only [if_neg hc] at h
      exact ih h

theorem hasTag_append_of {a b : List Char} (ha : hasTag a = false) (hb : hasTag b = false)
    (hgt : '>' ∉ b) : hasTag (a ++ b) = false := by
  induction a with
  | nil => exact hb
  | cons c a ih =>
    simp only [List.cons_append, hasTag, List.append_eq] at ha ⊢
    by_cases hc : c = '<'
    · simp only [if_pos hc] at ha ⊢
      refine dropAfterGt_isSome_eq_false fun hm => ?_
      rcases List.mem_append.mp hm with h1 | h2
      · rw [dropAfterGt_isSome_of_mem h1] at ha
        exact absurd ha (by simp)
      · exact hgt h2
    · simp only [if_neg hc] at ha ⊢
      exact ih ha

theorem hasTag_take {l : List Char} (n : Nat) (h : hasTag l = false) : hasTag (l.take n) = false := by
  refine hasTag_append_left (a := l.take n) (b := l.drop n) ?_
  rw [List.take_append_drop]
  exact h

theorem hasTag_dropWhile {l : List Char} (p : Char → Bool) (h : hasTag l = false) :
    hasTag (l.dropWhile p) = false := by
  refine hasTag_append_right (a := l.takeWhile p) (b := l.dropWhile p) ?_
  rw [List.takeWhile_append_dropWhile]
  exact h

theorem dropWhileEnd_cons (p : Char → Bool) (c : Char) (cs : List Char) :
    dropWhileEnd p (c :: cs) =
      match dropWhileEnd p cs with
      | [] => if p c then [] else [c]
      | d :: ds => c :: d :: ds := rfl

theorem dropWhileEnd_append (p : Char → Bool) (l : List Char) :
    ∃ t, l = dropWhileEnd p l ++ t := by
  induction l with
  | nil => exact ⟨[], rfl⟩
  | cons c cs ih =>
    obtain ⟨t, ht⟩ := ih
    cases hdwe : dropWhileEnd p cs with
    | nil =>
      by_cases hp : p c
      · exact ⟨c :: cs, by rw [dropWhileEnd_cons, hdwe]; simp [hp]⟩
      · refine ⟨cs, ?_⟩
        rw [dropWhileEnd_cons, hdwe]
        simp [hp]
    | cons d ds =>
      refine ⟨t, ?_⟩
      rw [hdwe] at ht
      rw [dropWhileEnd_cons, hdwe]
      rw [List.cons_append, ← ht]

theorem hasTag_dropWhileEnd {l : List Char} (p : Char → Bool) (h : hasTag l = false) :
    hasTag (dropWhileEnd p l) = false := by
  obtain ⟨t, ht⟩ := dropWhileEnd_append p l
  rw [ht] at h
  exact hasTag_append_left h

theorem dropWhile_self (p : Char → Bool) (l : List Char) :
    List.dropWhile p (List.dropWhile p l) = List.dropWhile p l := by
  induction l with
  | nil => rfl
  | cons c cs ih =>
    by_cases hp : p c
    · rw [List.dropWhile_cons_of_pos hp, ih]
    · rw [List.dropWhile_cons_of_neg hp, List.dropWhile_cons_of_neg hp]

theorem dropWhileEnd_self (p : Char → Bool) (l : List Char) :
    dropWhileEnd p (dropWhileEnd p l) = dropWhileEnd p l := by
  induction l with
  | nil => rfl
  | cons c cs ih =>
    cases hdwe : dropWhileEnd p cs with
    | nil =>
      rw [dropWhileEnd_cons, hdwe]
      by_cases hp : p c
      · simp [hp, dropWhileEnd]
      · simp [hp, dropWhileEnd_cons, dropWhileEnd]
    | cons d ds =>
      rw [hdwe] at ih
      rw [dropWhileEnd_cons, hdwe]
      rw [dropWhileEnd_cons, ih]

theorem dropWhile_dropWhileEnd_comm (p : Char → Bool) (l : List Char) :
    List.dropWhile p (dropWhileEnd p l) = dropWhileEnd p (List.dropWhile p l) := by
  induction l with
  | nil => rfl
  | cons c cs ih =>
    by_cases hp : p c
    · rw [List.dropWhile_cons_of_pos hp]
      rw [← ih]
      cases hdwe : dropWhileEnd p cs with
      | nil =>
        rw [dropWhileEnd_cons, hdwe]
        simp [hp]
      | cons d ds =>
        rw [dropWhileEnd_cons, hdwe]
        rw [List.dropWhile_cons_of_pos hp]
    · rw [List.dropWhile_cons_of_neg hp]
      cases hdwe : dropWhileEnd p cs with
      | nil =>
        rw [dropWhileEnd_cons, hdwe]
        simp only [if_neg hp]
        rw [List.dropWhile_cons_of_neg hp]
      | cons d ds =>
        rw [dropWhileEnd_cons, hdwe]
        show List.dropWhile p (c :: d :: ds) = c :: d :: ds
        rw [List.dropWhile_cons_of_neg hp]

theorem trim_idem (l : List Char) : trim (trim l) = trim l := by
  show dropWhileEnd isJsWhitespace
      ((dropWhileEnd isJsWhitespace (l.dropWhile isJsWhitespace)).dropWhile isJsWhitespace) = _
  rw [dropWhile_dropWhileEnd_comm, dropWhile_self, dropWhileEnd_self]
  rfl

theorem hasTag_trim {l : List Char} (h : hasTag l = false) : hasTag (trim l) = false :=
  hasTag_dropWhileEnd _ (hasTag_dropWhile _ h)

theorem createExcerpt_of_le {s : List Char} {n : Nat} (h : (stripTags s).length ≤ n) :
    createExcerpt s n = stripTags s := by
  simp only [createExcerpt]
  rw [if_neg (by omega)]

theorem createExcerpt_of_gt {s : List Char} {n : Nat} (h : (stripTags s).length > n) :
    createExcerpt s n = trim ((stripTags s).take n) ++ ['.', '.', '.'] := by
  simp only [createExcerpt]
  rw [if_pos h]

theorem hasTag_excerpt_tail (s : List Char) (n : Nat) :
    hasTag (trim ((stripTags s).take n) ++ ['.', '.', '.']) = false :=
  hasTag_append_of (hasTag_trim (hasTag_take n (hasTag_stripTags s))) (by decide) (by decide)

/-! ## Claim theorems -/

/-- Claim C3 (counterexample): excerpt generation is not idempotent at a
fixed budget.  At budget 4, `"abc efg"` truncates to `"abc "`, trims to
`"abc"` and gains the ellipsis: `"abc..."`; re-truncating that at budget 4
cuts into the ellipsis and yields `"abc...."`. -/
theorem claim3_counterexample :
    createExcerpt (createExcerpt ['a', 'b', 'c', ' ', 'e', 'f', 'g'] 4) 4 ≠
      createExcerpt ['a', 'b', 'c', ' ', 'e', 'f', 'g'] 4 := by
  have h1 : stripTags ['a', 'b', 'c', ' ', 'e', 'f', 'g'] = ['a', 'b', 'c', ' ', 'e', 'f', 'g'] :=
    hasTag_eq_false_iff_strip_fix (by decide)
  have h2 : createExcerpt ['a', 'b', 'c', ' ', 'e', 'f', 'g'] 4 = ['a', 'b', 'c', '.', '.', '.'] := by
    rw [createExcerpt_of_gt (by rw [h1]; decide)]
    rw [h1]
    decide
  have h3 : createExcerpt ['a', 'b', 'c', '.', '.', '.'] 4 = ['a', 'b', 'c', '.', '.', '.', '.'] := by
    have hfix : stripTags ['a', 'b', 'c', '.', '.', '.'] = ['a', 'b', 'c', '.', '.', '.'] :=
      hasTag_eq_false_iff_strip_fix (by decide)
    rw [createExcerpt_of_gt (by rw [hfix]; decide)]
    rw [hfix]
    decide
  rw [h2, h3]
  decide

/-- Claim C3 (amended): `createExcerpt` strips tags and appends the
ellipsis exactly when the clean text exceeds the budget (so an input whose
tag-stripped length is at most `n` comes back as its tag-stripped text,
i.e. unchanged whenever stripping removes nothing), and re-truncation at
the same budget is the identity provided the trimmed `n`-unit prefix does
not land on length `n - 1` or `n - 2` — that is, whenever the clean text
already fits, or the trimmed prefix plus the 3-unit ellipsis still fits,
or trimming removed nothing from the prefix.  (The unconditional statement
is refuted by `claim3_counterexample`.) -/
theorem claim3_excerpt_idem (s : List Char) (n : Nat)
    (h : (stripTags s).length ≤ n ∨
         (trim ((stripTags s).take n)).length + 3 ≤ n ∨
         (trim ((stripTags s).take n)).length = n) :
    createExcerpt (createExcerpt s n) n = createExcerpt s n ∧
    ((stripTags s).length ≤ n → createExcerpt s n = stripTags s) ∧
    ((stripTags s).length > n →
      createExcerpt s n = trim ((stripTags s).take n) ++ ['.', '.', '.']) := by
  refine ⟨?_, fun hle => createExcerpt_of_le hle, fun hgt => createExcerpt_of_gt hgt⟩
  by_cases hgt : (stripTags s).length > n
  · have hce := createExcerpt_of_gt hgt
    have hfix : stripTags (trim ((stripTags s).take n) ++ ['.', '.', '.']) =
        trim ((stripTags s).take n) ++ ['.', '.', '.'] :=
      hasTag_eq_false_iff_strip_fix (hasTag_excerpt_tail s n)
    rcases h with h1 | h2 | h3
    · omega
    · rw [hce]
      have hlen : (stripTags (trim ((stripTags s).take n) ++ ['.', '.', '.'])).length ≤ n := by
        rw [hfix]
        simp only [List.length_append, List.length_cons, List.length_nil]
        omega
      rw [createExcerpt_of_le hlen, hfix]
    · rw [hce]
      have hlen : (stripTags (trim ((stripTags s).take n) ++ ['.', '.', '.'])).length > n := by
        rw [hfix]
        simp only [List.length_append, List.length_cons, List.length_nil]
        omega
      rw [createExcerpt_of_gt hlen, hfix]
      have htake : ((trim ((stripTags s).take n) ++ ['.', '.', '.']).take n) =
          trim ((stripTags s).take n) := by
        rw [List.take_append_of_le_length (by omega)]
        exact List.take_of_length_le (by omega)
      rw [htake, trim_idem]
  · have hle : (stripTags s).length ≤ n := Nat.le_of_not_lt hgt
    rw [createExcerpt_of_le hle]
    have hle2 : (stripTags (stripTags s)).length ≤ n := by rw [stripTags_idem]; exact hle
    rw [createExcerpt_of_le hle2]
    exact stripTags_idem s

/-- Claim C3 (witness): the amended theorem applied at the concrete input
`"hi"` with budget 4 (clean text fits the budget). -/
theorem claim3_excerpt_idem_witness :
    ((stripTags ['h', 'i']).length ≤ 4 ∨
      (trim ((stripTags ['h', 'i']).take 4)).length + 3 ≤ 4 ∨
      (trim ((stripTags ['h', 'i']).take 4)).length = 4) ∧
    createExcerpt (createExcerpt ['h', 'i'] 4) 4 = createExcerpt ['h', 'i'] 4 := by
  have hyp : (stripTags ['h', 'i']).length ≤ 4 ∨
      (trim ((stripTags ['h', 'i']).take 4)).length + 3 ≤ 4 ∨
      (trim ((stripTags ['h', 'i']).take 4)).length = 4 :=
    Or.inl (by rw [hasTag_eq_false_iff_strip_fix (by decide)]; decide)
  exact ⟨hyp, (claim3_excerpt_idem ['h', 'i'] 4 hyp).1⟩

/-- Claim C4: for a token that decodes, `isTokenExpired` reports `true`
exactly by comparing the payload's epoch-seconds expiry with the current
time: an expiry strictly before `Date.now() / 1000` is reported expired,
and an expiry strictly after it is not.  (`exp * 1000 < nowMs` is the
integer form of `exp < nowMs / 1000`.) -/
theorem claim4_token_expiry (payload : JWTPayload) (nowMs : Int) :
    (payload.exp * 1000 < nowMs → isTokenExpired (some payload) nowMs = true) ∧
    (nowMs < payload.exp * 1000 → isTokenExpired (some payload) nowMs = false) := by
  constructor
  · intro h
    simp only [isTokenExpired, decide_eq_true_eq]
    rw [lt_div_iff₀ (by norm_num)]
    exact_mod_cast h
  · intro h
    simp only [isTokenExpired]
    rw [decide_eq_false_iff_not, not_lt, div_le_iff₀ (by norm_num)]
    exact_mod_cast Int.le_of_lt h

/-- Claim C4 (witness): a payload expiring at epoch second 1000 is
expired at `nowMs = 2000000` and not expired at `nowMs = 500000`. -/
theorem claim4_token_expiry_witness :
    ((1000 : Int) * 1000 < 2000000 ∧
      isTokenExpired (some ⟨"wp", 0, 0, 1000, ⟨1, "u", "u@x", []⟩⟩) 2000000 = true) ∧
    ((500000 : Int) < 1000 * 1000 ∧
      isTokenExpired (some ⟨"wp", 0, 0, 1000, ⟨1, "u", "u@x", []⟩⟩) 500000 = false) :=
  ⟨⟨by decide, (claim4_token_expiry ⟨"wp", 0, 0, 1000, ⟨1, "u", "u@x", []⟩⟩ 2000000).1 (by decide)⟩,
   ⟨by decide, (claim4_token_expiry ⟨"wp", 0, 0, 1000, ⟨1, "u", "u@x", []⟩⟩ 500000).2 (by decide)⟩⟩

/-- Claim C2: `apiRequest` never lets a failure escape as a throw: on any
non-2xx status and on any thrown transport/parse error the result is the
typed `{ data: null, error: message }` value, and on success the `error`
field is `null` and the body is returned. -/
theorem claim2_api_request {α : Type} (o : FetchOutcome α) :
    (o.isFailure = true →
      (apiRequest o).data = none ∧ ∃ m, (apiRequest o).error = some m) ∧
    (o.isFailure = false →
      (apiRequest o).error = none ∧ ∃ b, (apiRequest o).data = some b) := by
  cases o with
  | success body tpHeader tHeader =>
    exact ⟨fun h => by simp [FetchOutcome.isFailure] at h,
           fun _ => ⟨rfl, ⟨body, rfl⟩⟩⟩
  | httpError status statusText =>
    exact ⟨fun _ => ⟨rfl, ⟨_, rfl⟩⟩, fun h => by simp [FetchOutcome.isFailure] at h⟩
  | thrown msg =>
    exact ⟨fun _ => ⟨rfl, ⟨_, rfl⟩⟩, fun h => by simp [FetchOutcome.isFailure] at h⟩

/-- Claim C2 (witness): the theorem applied to a concrete 500 response
and to a concrete success response. -/
theorem claim2_api_request_witness :
    ((FetchOutcome.httpError 500 "Internal Server Error" : FetchOutcome (List Nat)).isFailure = true ∧
      (apiRequest (FetchOutcome.httpError 500 "Internal Server Error" : FetchOutcome (List Nat))).data = none ∧
      ∃ m, (apiRequest (FetchOutcome.httpError 500 "Internal Server Error" : FetchOutcome (List Nat))).error = some m) ∧
    ((FetchOutcome.success [3] none none : FetchOutcome (List Nat)).isFailure = false ∧
      (apiRequest (FetchOutcome.success [3] none none : FetchOutcome (List Nat))).error = none) :=
  ⟨⟨rfl, (claim2_api_request (FetchOutcome.httpError 500 "Internal Server Error" : FetchOutcome (List Nat))).1 rfl⟩,
   ⟨rfl, ((claim2_api_request (FetchOutcome.success [3] none none : FetchOutcome (List Nat))).2 rfl).1⟩⟩

/-- Claim C10: every failure of `serverPostsAPI.getPosts` (non-2xx,
timeout, network or parse error) is swallowed into the empty-success
value `{ posts: [], totalPages: 1, total: 0 }` — no throw, no error
indicator — and a genuinely empty listing (empty body, headers `1`/`0`)
produces the identical value, so the two are indistinguishable. -/
theorem claim10_server_posts_failure (o : ServerFetchOutcome (List WordPressPost)) :
    (o.isFailure = true →
      serverGetPosts o = { posts := [], totalPages := some 1, total := some 0 }) ∧
    serverGetPosts (.success [] (some "1") (some "0")) =
      { posts := [], totalPages := some 1, total := some 0 } := by
  constructor
  · intro h
    cases o with
    | success body tpHeader tHeader => simp [ServerFetchOutcome.isFailure] at h
    | httpError status statusText => rfl
    | thrown msg => rfl
  · show ServerPostsResult.mk ([].map transformPost) (jsParseInt (jsOrString (some "1") "1"))
        (jsParseInt (jsOrString (some "0") "0")) = _
    decide

/-- Claim C10 (witness): the theorem applied to a concrete timeout-style
thrown failure. -/
theorem claim10_server_posts_failure_witness :
    (ServerFetchOutcome.thrown (some "WordPress API request timeout") :
        ServerFetchOutcome (List WordPressPost)).isFailure = true ∧
    serverGetPosts (.thrown (some "WordPress API request timeout")) =
      { posts := [], totalPages := some 1, total := some 0 } :=
  ⟨rfl, (claim10_server_posts_failure (.thrown (some "WordPress API request timeout"))).1 rfl⟩

/-- Claim C9 (counterexample): `goToPage` computes the derived flags from
the unclamped argument: with `totalPages = 1`, `goToPage 5` stores
`currentPage = 1` yet sets `hasPreviousPage = true`, violating
`hasPreviousPage = currentPage > 1`. -/
theorem claim9_counterexample :
    ¬ flagsConsistent (goToPage ⟨1, 1, false, false⟩ 5) := by
  simp only [flagsConsistent, goToPage]
  decide

/-- Claim C9 (amended): `setPagination`, `nextPage` and `previousPage`
always leave `hasNextPage = currentPage < totalPages` and
`hasPreviousPage = currentPage > 1`; `goToPage` does so only when the
requested page already lies in `[1, totalPages]` (outside that range the
flags are computed from the unclamped argument — see
`claim9_counterexample`).  `nextPage` and `previousPage` keep
`currentPage` within `[1, totalPages]` whenever it starts there, and
`goToPage` clamps into `[1, totalPages]` whenever `totalPages ≥ 1`. -/
theorem claim9_pagination (state : PaginationState) (cp tp page : Int) :
    flagsConsistent (setPagination state cp tp) ∧
    flagsConsistent (nextPage state) ∧
    flagsConsistent (previousPage state) ∧
    (1 ≤ page → page ≤ state.totalPages → flagsConsistent (goToPage state page)) ∧
    (1 ≤ state.currentPage → state.currentPage ≤ state.totalPages →
      1 ≤ (nextPage state).currentPage ∧ (nextPage state).currentPage ≤ (nextPage state).totalPages ∧
      1 ≤ (previousPage state).currentPage ∧
      (previousPage state).currentPage ≤ (previousPage state).totalPages) ∧
    (1 ≤ state.totalPages →
      1 ≤ (goToPage state page).currentPage ∧
      (goToPage state page).currentPage ≤ (goToPage state page).totalPages) := by
  refine ⟨⟨rfl, rfl⟩, ⟨rfl, rfl⟩, ⟨rfl, rfl⟩, ?_, ?_, ?_⟩
  · intro h1 h2
    have hclamp : max 1 (min page state.totalPages) = page := by omega
    constructor
    · show decide (page < state.totalPages) = decide (max 1 (min page state.totalPages) < state.totalPages)
      rw [hclamp]
    · show decide (page > 1) = decide (max 1 (min page state.totalPages) > 1)
      rw [hclamp]
  · intro h1 h2
    simp only [nextPage, previousPage]
    refine ⟨?_, ?_, ?_, ?_⟩ <;> omega
  · intro h1
    simp only [goToPage]
    constructor <;> omega

/-- Claim C9 (witness): the amended theorem applied at the state
`⟨2, 5, true, true⟩` with target page 3. -/
theorem claim9_pagination_witness :
    ((1 : Int) ≤ 3 ∧ (3 : Int) ≤ (⟨2, 5, true, true⟩ : PaginationState).totalPages ∧
      flagsConsistent (goToPage ⟨2, 5, true, true⟩ 3)) ∧
    ((1 : Int) ≤ (⟨2, 5, true, true⟩ : PaginationState).currentPage ∧
      1 ≤ (nextPage ⟨2, 5, true, true⟩).currentPage ∧
      (nextPage ⟨2, 5, true, true⟩).currentPage ≤ (nextPage ⟨2, 5, true, true⟩).totalPages) :=
  ⟨⟨by decide, by decide,
    (claim9_pagination ⟨2, 5, true, true⟩ 0 0 3).2.2.2.1 (by decide) (by decide)⟩,
   ⟨by decide,
    ((claim9_pagination ⟨2, 5, true, true⟩ 0 0 3).2.2.2.2.1 (by decide) (by decide)).1,
    ((claim9_pagination ⟨2, 5, true, true⟩ 0 0 3).2.2.2.2.1 (by decide) (by decide)).2.1⟩⟩

/-! ## General lemmas about the gateway and the auth flows -/

theorem transformPost_slug (post : WordPressPost) : (transformPost post).slug = post.slug := rfl

theorem jsOrString_ne_empty {a : Option String} {d : String} (hd : d ≠ "") :
    jsOrString a d ≠ "" := by
  cases a with
  | none => exact hd
  | some s =>
    by_cases hs : s = ""
    · simpa [jsOrString, hs] using hd
    · simpa [jsOrString, hs] using hs

theorem makeRequest_error_message {α : Type} {o : AuthRequestOutcome α} {e : AuthAPIErrorData}
    (h : makeRequest o = .error e) : e.message ≠ "" := by
  cases o with
  | ok body => simp [makeRequest] at h
  | httpError status dataMessage dataCode =>
    simp only [makeRequest] at h
    rw [Except.error.injEq] at h
    rw [← h]
    exact jsOrString_ne_empty (by decide)
  | typeError =>
    simp only [makeRequest] at h
    rw [Except.error.injEq] at h
    rw [← h]
    decide
  | otherThrown =>
    simp only [makeRequest] at h
    rw [Except.error.injEq] at h
    rw [← h]
    decide

theorem authLogin_error_message {tokenOutcome : AuthRequestOutcome TokenEndpointBody}
    {validateOutcome : AuthRequestOutcome ValidateEndpointBody} {nowIso : String}
    {e : AuthAPIErrorData}
    (h : authLogin tokenOutcome validateOutcome nowIso = .error e) : e.message ≠ "" := by
  unfold authLogin at h
  cases hmk : makeRequest tokenOutcome with
  | error e1 =>
    rw [hmk] at h
    rw [Except.error.injEq] at h
    subst h
    exact makeRequest_error_message hmk
  | ok tokenBody =>
    rw [hmk] at h
    cases hmv : makeRequest validateOutcome with
    | error e2 =>
      rw [hmv] at h
      rw [Except.error.injEq] at h
      subst h
      exact makeRequest_error_message hmv
    | ok validateBody =>
      rw [hmv] at h
      simp at h

/-- Claim C1: against the WordPress contract for `?slug=` queries, when a
post with the requested slug exists upstream both `postsAPI.getPostBySlug`
and `serverPostsAPI.getPostBySlug` return a result whose `slug` equals the
request, and when no such post exists the client returns the explicit
`{ data: null, error: 'Post not found' }` value and the server variant
`null` — in all cases a value, never a throw (both embeddings are total). -/
theorem claim1_fetch_by_slug (db : List WordPressPost) (s : String)
    (tpHeader tHeader : Option String) :
    ((∃ p ∈ db, p.slug = s) →
      (∃ q, (getPostBySlug (.success (wpPostsBySlugQuery db s) tpHeader tHeader)).data = some q ∧
        q.slug = s ∧
        (getPostBySlug (.success (wpPostsBySlugQuery db s) tpHeader tHeader)).error = none) ∧
      (∃ a, serverGetPostBySlug (.success (wpPostsBySlugQuery db s) tpHeader tHeader) = some a ∧
        a.slug = s)) ∧
    ((∀ p ∈ db, p.slug ≠ s) →
      getPostBySlug (.success (wpPostsBySlugQuery db s) tpHeader tHeader) =
        { data := none, error := some "Post not found" } ∧
      serverGetPostBySlug (.success (wpPostsBySlugQuery db s) tpHeader tHeader) = none) := by
  constructor
  · intro hex
    obtain ⟨p, hmem, hslug⟩ := hex
    have hpmem : p ∈ wpPostsBySlugQuery db s :=
      List.mem_filter.mpr ⟨hmem, by simp [hslug]⟩
    cases hq : wpPostsBySlugQuery db s with
    | nil => rw [hq] at hpmem; simp at hpmem
    | cons q qs =>
      have hqmem : q ∈ wpPostsBySlugQuery db s := by
        rw [hq]; exact List.mem_cons_self _ _
      have hqs : q.slug = s := by
        have h2 := (List.mem_filter.mp hqmem).2
        simpa using h2
      exact ⟨⟨q, rfl, hqs, rfl⟩, ⟨transformPost q, rfl, hqs⟩⟩
  · intro hall
    have hnil : wpPostsBySlugQuery db s = [] := by
      simp only [wpPostsBySlugQuery]
      rw [List.filter_eq_nil_iff]
      intro p hp
      simp [hall p hp]
    rw [hnil]
    exact ⟨rfl, rfl⟩

/-- Claim C1 (witness): the theorem applied to a one-post upstream with
the present slug `"hello"` and to the absent slug `"nope"`. -/
theorem claim1_fetch_by_slug_witness :
    ((∃ p ∈ [examplePost], p.slug = "hello") ∧
      (∃ q, (getPostBySlug (.success (wpPostsBySlugQuery [examplePost] "hello") none none)).data =
          some q ∧ q.slug = "hello" ∧
        (getPostBySlug (.success (wpPostsBySlugQuery [examplePost] "hello") none none)).error = none)) ∧
    ((∀ p ∈ [examplePost], p.slug ≠ "nope") ∧
      getPostBySlug (.success (wpPostsBySlugQuery [examplePost] "nope") none none) =
        { data := none, error := some "Post not found" }) :=
  ⟨⟨by decide, ((claim1_fetch_by_slug [examplePost] "hello" none none).1 (by decide)).1⟩,
   ⟨by decide, ((claim1_fetch_by_slug [examplePost] "nope" none none).2 (by decide)).1⟩⟩

/-- Claim C8: a posts request for page 2 with `per_page=5`, answered with
a 5-item body and `X-WP-TotalPages: 10`, yields exactly those 5 items as
`data` and `totalPages = 10`, both read from the response (the body and
the parsed header) and not recomputed from the request parameters. -/
theorem claim8_get_posts_scenario (ps : List WordPressPost) (tHeader : Option String)
    (server : String → FetchOutcome (List WordPressPost))
    (hresp : server ("/posts?" ++ postsQueryString { page := some 2, per_page := some 5 }) =
      FetchOutcome.success ps (some "10") tHeader)
    (hlen : ps.length = 5) :
    (getPosts { page := some 2, per_page := some 5 } server).data = some ps ∧
    (∃ l, (getPosts { page := some 2, per_page := some 5 } server).data = some l ∧ l.length = 5) ∧
    (getPosts { page := some 2, per_page := some 5 } server).totalPages = some 10 := by
  simp only [getPosts, hresp]
  refine ⟨rfl, ⟨ps, rfl, hlen⟩, ?_⟩
  show jsParseInt (jsOrString (some "10") "1") = some 10
  decide

/-- Claim C8 (witness): the theorem applied to a backend answering every
request with five copies of the sample post and `X-WP-TotalPages: 10`. -/
theorem claim8_get_posts_scenario_witness :
    ([examplePost, examplePost, examplePost, examplePost, examplePost].length = 5) ∧
    (getPosts { page := some 2, per_page := some 5 }
        (fun _ => .success [examplePost, examplePost, examplePost, examplePost, examplePost]
          (some "10") none)).data =
      some [examplePost, examplePost, examplePost, examplePost, examplePost] ∧
    (getPosts { page := some 2, per_page := some 5 }
        (fun _ => .success [examplePost, examplePost, examplePost, examplePost, examplePost]
          (some "10") none)).totalPages = some 10 := by
  refine ⟨rfl, ?_, ?_⟩
  · exact (claim8_get_posts_scenario
      [examplePost, examplePost, examplePost, examplePost, examplePost] none _ rfl rfl).1
  · exact (claim8_get_posts_scenario
      [examplePost, examplePost, examplePost, examplePost, examplePost] none _ rfl rfl).2.2

/-- Claim C6: a login whose two gateway calls succeed moves the session to
`isAuthenticated = true` with the transformed server user (whose roles and
capabilities come from the server payload, defaulting to empty when
absent) stored in the state; a failed login leaves `user` and `token`
null, `isAuthenticated` false, and records the non-empty `AuthAPIError`
message. -/
theorem claim6_login (state : AuthState) (storage : LocalStorage)
    (tokenOutcome : AuthRequestOutcome TokenEndpointBody)
    (validateOutcome : AuthRequestOutcome ValidateEndpointBody) (nowIso : String) :
    (∀ resp, authLogin tokenOutcome validateOutcome nowIso = .ok resp →
      (providerLogin state storage tokenOutcome validateOutcome nowIso).1.isAuthenticated = true ∧
      (providerLogin state storage tokenOutcome validateOutcome nowIso).1.user = some resp.user ∧
      (providerLogin state storage tokenOutcome validateOutcome nowIso).1.token = some resp.token ∧
      (providerLogin state storage tokenOutcome validateOutcome nowIso).1.error = none) ∧
    (∀ validateBody resp, validateOutcome = .ok validateBody →
      authLogin tokenOutcome validateOutcome nowIso = .ok resp →
      resp.user.roles = validateBody.data.roles.getD [] ∧
      resp.user.capabilities = validateBody.data.capabilities.getD []) ∧
    (∀ e, authLogin tokenOutcome validateOutcome nowIso = .error e →
      (providerLogin state storage tokenOutcome validateOutcome nowIso).1.user = none ∧
      (providerLogin state storage tokenOutcome validateOutcome nowIso).1.token = none ∧
      (providerLogin state storage tokenOutcome validateOutcome nowIso).1.isAuthenticated = false ∧
      (providerLogin state storage tokenOutcome validateOutcome nowIso).1.error = some e.message ∧
      e.message ≠ "") := by
  refine ⟨?_, ?_, ?_⟩
  · intro resp h
    simp only [providerLogin, h]
    exact ⟨rfl, rfl, rfl, rfl⟩
  · intro validateBody resp hv hl
    subst hv
    unfold authLogin at hl
    cases hmk : makeRequest tokenOutcome with
    | error e1 =>
      rw [hmk] at hl
      simp at hl
    | ok tokenBody =>
      rw [hmk] at hl
      simp only [makeRequest] at hl
      rw [Except.ok.injEq] at hl
      rw [← hl]
      exact ⟨rfl, rfl⟩
  · intro e h
    simp only [providerLogin, h]
    exact ⟨rfl, rfl, rfl, rfl, authLogin_error_message h⟩

/-- Claim C6 (witness): the theorem applied to a successful exchange
(token then validate, payload with roles `["editor"]`) and to a rejected
login (`403` with message `"Invalid credentials"`). -/
theorem claim6_login_witness :
    ((providerLogin initialState ⟨none, none, none⟩ (.ok ⟨"tok", some "r", some 7200⟩)
        (.ok ⟨exampleWpUser⟩) "now").1.isAuthenticated = true ∧
      (providerLogin initialState ⟨none, none, none⟩ (.ok ⟨"tok", some "r", some 7200⟩)
        (.ok ⟨exampleWpUser⟩) "now").1.user = some (transformUser exampleWpUser "now")) ∧
    ((transformUser exampleWpUser "now").roles = ["editor"] ∧
      (transformUser exampleWpUser "now").capabilities = [("edit_posts", true)]) ∧
    ((providerLogin initialState ⟨none, none, none⟩
        (.httpError 403 (some "Invalid credentials") (some "jwt_auth_failed"))
        (.ok ⟨exampleWpUser⟩) "now").1.user = none ∧
      (providerLogin initialState ⟨none, none, none⟩
        (.httpError 403 (some "Invalid credentials") (some "jwt_auth_failed"))
        (.ok ⟨exampleWpUser⟩) "now").1.isAuthenticated = false ∧
      (providerLogin initialState ⟨none, none, none⟩
        (.httpError 403 (some "Invalid credentials") (some "jwt_auth_failed"))
        (.ok ⟨exampleWpUser⟩) "now").1.error = some "Invalid credentials" ∧
      ("Invalid credentials" : String) ≠ "") := by
  have hok := (claim6_login initialState ⟨none, none, none⟩ (.ok ⟨"tok", some "r", some 7200⟩)
    (.ok ⟨exampleWpUser⟩) "now").1
    ⟨"tok", transformUser exampleWpUser "now", some "r", 7200⟩ rfl
  have hroles := (claim6_login initialState ⟨none, none, none⟩ (.ok ⟨"tok", some "r", some 7200⟩)
    (.ok ⟨exampleWpUser⟩) "now").2.1 ⟨exampleWpUser⟩
    ⟨"tok", transformUser exampleWpUser "now", some "r", 7200⟩ rfl rfl
  have herr := (claim6_login initialState ⟨none, none, none⟩
    (.httpError 403 (some "Invalid credentials") (some "jwt_auth_failed"))
    (.ok ⟨exampleWpUser⟩) "now").2.2
    ⟨"Invalid credentials", "jwt_auth_failed", 403⟩ rfl
  exact ⟨⟨hok.1, hok.2.1⟩, ⟨hroles.1, hroles.2⟩, ⟨herr.1, herr.2.2.1, herr.2.2.2.1, herr.2.2.2.2⟩⟩

/-- Claim C7: a failed token refresh is fatal and never retried: when no
refresh token is stored the provider logs out with zero refresh calls, a
failing `authAPI.refreshToken` call forces a logout (state reset to the
initial anonymous state, all three stored keys cleared), and in every
execution at most one refresh call is issued. -/
theorem claim7_refresh_failure (state : AuthState) (storage : LocalStorage)
    (refreshOutcome : AuthRequestOutcome TokenEndpointBody)
    (validateOutcome : AuthRequestOutcome ValidateEndpointBody) (nowIso : String) :
    authReducer state .authLogout = initialState ∧
    (storage.refreshToken = none →
      providerRefreshAuth state storage refreshOutcome validateOutcome nowIso =
        (initialState, authLogoutStorage storage, 0)) ∧
    (∀ rt e, storage.refreshToken = some rt → rt ≠ "" →
      authRefreshTokenCall rt refreshOutcome validateOutcome nowIso = .error e →
      providerRefreshAuth state storage refreshOutcome validateOutcome nowIso =
        (initialState, authLogoutStorage storage, 1)) ∧
    (providerRefreshAuth state storage refreshOutcome validateOutcome nowIso).2.2 ≤ 1 ∧
    (authLogoutStorage storage).authToken = none ∧
    (authLogoutStorage storage).refreshToken = none ∧
    (authLogoutStorage storage).userData = none := by
  refine ⟨rfl, ?_, ?_, ?_, rfl, rfl, rfl⟩
  · intro h
    simp only [providerRefreshAuth, h]
    rfl
  · intro rt e hrt hne herr
    simp only [providerRefreshAuth, hrt, if_neg hne, herr]
    rfl
  · simp only [providerRefreshAuth]
    cases hrt : storage.refreshToken with
    | none => simp
    | some rt =>
      by_cases hne : rt = ""
      · simp [if_pos hne]
      · cases hcall : authRefreshTokenCall rt refreshOutcome validateOutcome nowIso with
        | ok resp => simp [if_neg hne, hcall]
        | error e => simp [if_neg hne, hcall]

/-- Claim C7 (witness): the theorem applied to a stored refresh token
`"r"` and a network-failing refresh exchange. -/
theorem claim7_refresh_failure_witness :
    ((⟨some "t", some "r", some (transformUser exampleWpUser "now")⟩ :
        LocalStorage).refreshToken = some "r" ∧
      ("r" : String) ≠ "" ∧
      authRefreshTokenCall "r" .typeError (.ok ⟨exampleWpUser⟩) "now" =
        .error ⟨"Network error - please check your connection", "NETWORK_ERROR", 0⟩) ∧
    providerRefreshAuth initialState
        ⟨some "t", some "r", some (transformUser exampleWpUser "now")⟩
        .typeError (.ok ⟨exampleWpUser⟩) "now" =
      (initialState,
        authLogoutStorage ⟨some "t", some "r", some (transformUser exampleWpUser "now")⟩, 1) :=
  ⟨⟨rfl, by decide, rfl⟩,
   (claim7_refresh_failure initialState
      ⟨some "t", some "r", some (transformUser exampleWpUser "now")⟩
      .typeError (.ok ⟨exampleWpUser⟩) "now").2.2.1 "r"
      ⟨"Network error - please check your connection", "NETWORK_ERROR", 0⟩
      rfl (by decide) rfl⟩
